import Mathlib

/-!
Shallow embedding of the ImmoTrack enrichment/valuation pipeline.

The definitions below are translated from the Python sources:
- `src/src/dataprocessor/price_estimator.py` (class `PriceEstimator`)
- `src/src/dataprocessor/dpe_enrichment.py` (class `DPEService`)
- `src/src/dataprocessor/address_enrichment.py` (class `AddressEnrichment`)
- `src/src/utils/storage_manager.py` (classes `DataFormat`, `PropertyDataManager`)

Modelling conventions:
- Python numbers (ints and floats used for prices/areas/rates) are embedded as
  rationals (`ℚ`); arithmetic is exact, which matches the source up to binary
  floating-point representation error.
- A Python `ZeroDivisionError` (raised by `/` on a zero divisor) and a
  `strptime` failure are modelled as explicit branches, since in the source
  they are caught by `except` clauses that set an `ERROR` status.
- Pandas `DataFrame`s are embedded as a column-name list plus one association
  list (column name, cell) per row; `DataFrame` cells are `Cell` values where
  `Cell.null` stands for `None`/`NaN`.
- Randomly generated UUIDs and wall-clock timestamps are passed in as explicit
  parameters (`uuidGen`, `ts`): the source obtains them from `uuid.uuid4()`
  and `datetime.now()`.
-/

namespace ImmoTrack

/-- A pandas cell: `null` stands for Python `None`/`NaN`, `str` for strings,
`int` for integers, `rat` for floats (embedded exactly as rationals). -/
inductive Cell where
  | null
  | str (s : String)
  | int (n : Int)
  | rat (q : ℚ)
deriving DecidableEq, Repr

/-- First-match association-list lookup, the embedding of Python `dict`
indexing / `key in dict` membership. -/
def lookupKV {α β : Type} [DecidableEq α] (k : α) : List (α × β) → Option β
  | [] => none
  | p :: r => if p.1 = k then some p.2 else lookupKV k r

@[simp] theorem lookupKV_nil {α β : Type} [DecidableEq α] (k : α) :
    lookupKV (β := β) k [] = none := rfl

@[simp] theorem lookupKV_cons {α β : Type} [DecidableEq α] (k : α) (p : α × β)
    (r : List (α × β)) :
    lookupKV k (p :: r) = if p.1 = k then some p.2 else lookupKV k r := rfl

/-! ## Price estimator (`src/src/dataprocessor/price_estimator.py`) -/

/-- `(city_name, property_type)` key used for reference prices and growth
rates (`key = (city, prop_type)` in `_estimate_property_price`). -/
abbrev CityKey := String × String

/-- One entry of `yearly_growth` as built by
`PriceEstimator._calculate_yearly_growth`:
`{'growth_rate': ..., 'from_price': ..., 'to_price': ...}`. -/
structure GrowthInfo where
  growth_rate : ℚ
  from_price : ℚ
  to_price : ℚ
deriving DecidableEq, Repr

/-- Insertion step for sorting year keys ascending (Python `sorted`). -/
def insertSorted (x : Int) : List Int → List Int
  | [] => [x]
  | y :: ys => if x ≤ y then x :: y :: ys else y :: insertSorted x ys

/-- Ascending sort of the year keys, the embedding of
`years = sorted(yearly_means.keys())`. -/
def sortYears (l : List Int) : List Int := l.foldr insertSorted []

/-- `PriceEstimator._calculate_yearly_growth`: from `yearly_means`
(year → mean price per m², an association list standing for the Python dict)
build the year → growth-edge map: for each pair of consecutive known years
(sorted ascending), `growth_rate = means[next_year] / means[year] - 1`.
The lookups always succeed when the key list comes from the map itself; the
`none` fallback is unreachable in that case. -/
def calculate_yearly_growth (yearly_means : List (Int × ℚ)) :
    List (Int × GrowthInfo) :=
  let years := sortYears (yearly_means.map Prod.fst)
  (years.zip years.tail).filterMap (fun yp =>
    match lookupKV yp.1 yearly_means, lookupKV yp.2 yearly_means with
    | some fp, some tp => some (yp.1, ⟨tp / fp - 1, fp, tp⟩)
    | _, _ => none)

/-- Python's built-in `round` to an integer (round half to even). -/
def pythonRound (q : ℚ) : Int :=
  let f := ⌊q⌋
  if q < (f : ℚ) + 1/2 then f
  else if (f : ℚ) + 1/2 < q then f + 1
  else if f % 2 = 0 then f else f + 1

/-- The input fields of one property row that
`PriceEstimator._estimate_property_price` reads. `mutation_year` is the
`.year` of `datetime.strptime(row['mutation_date'], '%d/%m/%Y')`; it is
`none` when `strptime` raises (caught by the `except` clause). -/
structure EstRow where
  city_name : String
  property_type : String
  price : ℚ
  surface_area : ℚ
  mutation_year : Option Int
deriving DecidableEq, Repr

/-- The estimation columns written by
`PriceEstimator._estimate_property_price` (`none` = Python `None`). -/
structure EstResult where
  estimated_price : Option ℚ
  initial_price_m2 : Option ℚ
  final_price_m2 : Option ℚ
  total_growth_rate : Option ℚ
  estimation_status : String
deriving DecidableEq, Repr

/-- The projection loop of `_estimate_property_price`:
`for year in range(sale_year, 2024): if year in yearly_growth:
current_price *= (1 + growth_rate)`. -/
def projectPrice (yearly_growth : List (Int × GrowthInfo))
    (sale_year : Int) (initial : ℚ) : ℚ :=
  ((List.range (2024 - sale_year).toNat).map (fun i => sale_year + (i : Int))).foldl
    (fun p year =>
      match lookupKV year yearly_growth with
      | some gi => p * (1 + gi.growth_rate)
      | none => p) initial

/-- `PriceEstimator._estimate_property_price`, translated branch for branch:
- `row['initial_price_m2'] = row['price'] / row['surface_area']` raises
  `ZeroDivisionError` on zero surface, caught as status `ERROR`;
- `if key not in self.current_prices` → status `NO_REFERENCE` (the default
  set just before), `estimated_price` stays `None`;
- `strptime` failure → status `ERROR`;
- `if sale_year >= 2024` → own price, zero growth, status `CURRENT_YEAR`;
- `if key not in self.growth_rates` → status `NO_GROWTH_RATE`;
- otherwise chained multiplication over `range(sale_year, 2024)` and rounding
  only at the output stage, status `SUCCESS`. -/
def estimate_property_price (current_prices : List (CityKey × ℚ))
    (growth_rates : List (CityKey × List (Int × GrowthInfo)))
    (row : EstRow) : EstResult :=
  let key : CityKey := (row.city_name, row.property_type)
  if row.surface_area = 0 then
    ⟨none, none, none, none, "ERROR"⟩
  else
    let initial := row.price / row.surface_area
    if lookupKV key current_prices = none then
      ⟨none, some initial, none, none, "NO_REFERENCE"⟩
    else
      match row.mutation_year with
      | none => ⟨none, some initial, none, none, "ERROR"⟩
      | some sale_year =>
        if 2024 ≤ sale_year then
          ⟨some row.price, some initial, some initial, some 0, "CURRENT_YEAR"⟩
        else
          match lookupKV key growth_rates with
          | none => ⟨none, some initial, none, none, "NO_GROWTH_RATE"⟩
          | some yearly_growth =>
            let current_price := projectPrice yearly_growth sale_year initial
            ⟨some ((pythonRound (current_price * row.surface_area) : ℤ) : ℚ),
             some ((pythonRound initial : ℤ) : ℚ),
             some ((pythonRound current_price : ℤ) : ℚ),
             some ((pythonRound ((current_price / initial - 1) * 100) : ℤ) : ℚ),
             "SUCCESS"⟩

/-! ## Address matcher (`DPEService._validate_address_match`,
`src/src/dataprocessor/dpe_enrichment.py`)

Character-level semantics (`str.lower`, `str.isalnum`) are modelled on ASCII
plus the accented characters that the source's replacement table handles. -/

/-- Python `str.lower` restricted to the alphabet the matcher manipulates:
ASCII letters plus the uppercase forms of the accented characters in the
source's replacement table. -/
def pyLower (c : Char) : Char :=
  match c with
  | 'É' => 'é' | 'È' => 'è' | 'Ê' => 'ê' | 'Ë' => 'ë'
  | 'À' => 'à' | 'Â' => 'â' | 'Ä' => 'ä'
  | 'Ì' => 'ì' | 'Î' => 'î' | 'Ï' => 'ï'
  | 'Ò' => 'ò' | 'Ó' => 'ó' | 'Ô' => 'ô' | 'Ö' => 'ö'
  | 'Ù' => 'ù' | 'Û' => 'û' | 'Ü' => 'ü'
  | 'Ç' => 'ç'
  | _ => c.toLower

/-- Per-character effect of `clean_text`: lowercase, apply the accent
replacements, drop the listed punctuation and every other non-alphanumeric
character (the final `isalnum` filter). -/
def clean_char (c : Char) : List Char :=
  let c := pyLower c
  if c = 'é' ∨ c = 'è' ∨ c = 'ê' ∨ c = 'ë' then ['e']
  else if c = 'à' ∨ c = 'â' ∨ c = 'ä' then ['a']
  else if c = 'ì' ∨ c = 'î' ∨ c = 'ï' then ['i']
  else if c = 'ò' ∨ c = 'ó' ∨ c = 'ô' ∨ c = 'ö' then ['o']
  else if c = 'ù' ∨ c = 'û' ∨ c = 'ü' then ['u']
  else if c = 'ç' then ['c']
  else if c.isAlphanum then [c] else []

/-- The nested `clean_text` helper of `_validate_address_match`. All the
replacement sources are single characters mapped to a single character or to
the empty string, so the sequential `str.replace` calls act character-wise. -/
def clean_text (s : String) : String := ⟨(s.data.map clean_char).flatten⟩

/-- Boolean list-prefix test (used to embed Python's substring operator). -/
def isPrefixB : List Char → List Char → Bool
  | [], _ => true
  | _ :: _, [] => false
  | a :: as, b :: bs => if a = b then isPrefixB as bs else false

/-- Boolean list-infix test. -/
def isInfixB (p : List Char) : List Char → Bool
  | [] => isPrefixB p []
  | c :: rest => isPrefixB p (c :: rest) || isInfixB p rest

/-- Python's `needle in hay` substring operator. -/
def strIn (needle hay : String) : Bool := isInfixB needle.data hay.data

/-- `''.join(c for c in s if c.isdigit())[:3]` — every digit of the cleaned
string, concatenated, truncated to three characters. -/
def extract_number (s : String) : String :=
  ⟨(s.data.filter Char.isDigit).take 3⟩

/-- `''.join(c for c in s if not c.isdigit())`. -/
def stripDigits (s : String) : String :=
  ⟨s.data.filter (fun c => !c.isDigit)⟩

/-- The `common_words` set of the nested `remove_common_words` helper. -/
def common_words : List String :=
  ["de", "du", "des", "le", "la", "les", "l", "et", "en", "sur"]

/-- The nested `remove_common_words` helper. At both call sites its argument
is a cleaned, whitespace-free string, so Python's `text.split()` yields at
most one word and the set comprehension collapses to: clean the word again
and drop it when it is a common word. -/
def remove_common_words (text : String) : String :=
  if text = "" then ""
  else if clean_text text ∈ common_words then ""
  else clean_text text

/-- `DPEService._validate_address_match`, translated early-return for
early-return: reject when the cleaned city is not a substring of the cleaned
DPE address; reject when either extracted number is empty or the numbers
differ; otherwise accept iff the digit-stripped, common-word-stripped input
street is a substring of the corresponding DPE street. -/
def validate_address_match (input_addr dpe_addr city_name : String) : Bool :=
  let clean_input_addr := clean_text input_addr
  let clean_dpe_addr := clean_text dpe_addr
  let clean_city := clean_text city_name
  if strIn clean_city clean_dpe_addr then
    let input_number := extract_number clean_input_addr
    let dpe_number := extract_number clean_dpe_addr
    if input_number = "" ∨ dpe_number = "" then false
    else if input_number ≠ dpe_number then false
    else
      let input_street := remove_common_words (stripDigits clean_input_addr)
      let dpe_street := remove_common_words (stripDigits clean_dpe_addr)
      strIn input_street dpe_street
  else false

/-- A list is a Boolean prefix of itself. -/
theorem isPrefixB_refl (l : List Char) : isPrefixB l l = true := by
  induction l with
  | nil => rfl
  | cons a as ih => simp [isPrefixB, ih]

/-- A list is a Boolean infix of itself. -/
theorem isInfixB_self (l : List Char) : isInfixB l l = true := by
  cases l with
  | nil => rfl
  | cons a as => simp [isInfixB, isPrefixB_refl]

/-- A string contains itself as a substring. -/
theorem strIn_self (s : String) : strIn s s = true := isInfixB_self s.data

/-! ### Concrete estimator scenarios -/

/-- The yearly means of the spec scenario, with the anchor-year reference
price `1464.1` injected for 2024 (`yearly_means[2024] = current_price`). -/
def sampleMeans : List (Int × ℚ) :=
  [(2020, 1000), (2021, 1100), (2022, 1210), (2024, 14641/10)]

/-- The growth edges the estimator derives from `sampleMeans`. -/
def sampleGrowthList : List (Int × GrowthInfo) :=
  [(2020, ⟨1/10, 1000, 1100⟩), (2021, ⟨1/10, 1100, 1210⟩),
   (2022, ⟨21/100, 1210, 14641/10⟩)]

/-- A record in a city whose (city, type) key has no reference price while a
price for another property type of the same city exists. -/
def noRefRow : EstRow := ⟨"LYON", "Appartement", 200000, 50, some 2020⟩

/-- Reference prices holding only the `("LYON", "Maison")` entry, so a
city-wide average across property types would be available for `LYON`. -/
def lyonHousePrices : List (CityKey × ℚ) := [(("LYON", "Maison"), 3000)]

/-- A record sold in the anchor year whose key has no reference price. -/
def year2024Row : EstRow := ⟨"NICE", "Maison", 300000, 60, some 2024⟩

/-- A record sold in 2025 whose key does have a reference price. -/
def year2025Row : EstRow := ⟨"NICE", "Maison", 300000, 60, some 2025⟩

/-- Reference prices holding the `("NICE", "Maison")` entry. -/
def niceHousePrices : List (CityKey × ℚ) := [(("NICE", "Maison"), 5000)]

/-! ## Property store (`src/src/utils/storage_manager.py`) -/

/-- A DataFrame row: an association list from column name to cell. -/
abbrev Row := List (String × Cell)

/-- A pandas DataFrame: ordered column names plus one row per record. -/
structure Frame where
  cols : List String
  rows : List Row
deriving DecidableEq, Repr

/-- `DataFrame.empty`: true when the frame has no rows or no columns. -/
def Frame.isEmpty (f : Frame) : Bool := f.rows.isEmpty || f.cols.isEmpty

/-- `DataFormat.REQUIRED_COLUMNS`. -/
def REQUIRED_COLUMNS : List String := ["address", "city", "sale_date"]

/-- `DataFormat.get_rename_mapping()`: the `(old_name, new_name)` pairs of
`COLUMN_SPECS` whose action is `"rename"`, in dict insertion order. -/
def RENAME_MAPPING : List (String × String) :=
  [("complete_address", "address"),
   ("city_name", "city"),
   ("property_type", "type"),
   ("surface_area", "surface"),
   ("mutation_date", "sale_date"),
   ("dpe_classe_consommation_energie", "dpe_energy_class"),
   ("dpe_annee_construction", "construction_year"),
   ("dpe_surface_thermique_lot", "thermal_surface"),
   ("dpe_tr002_type_batiment_description", "building_type"),
   ("dpe_estimation_ges", "dpe_ges_estimate"),
   ("dpe_classe_estimation_ges", "dpe_ges_class"),
   ("dpe_consommation_energie", "energy_consumption"),
   ("dpe_date_etablissement_dpe", "dpe_date"),
   ("dpe__score", "dpe_score"),
   ("final_price_m2", "final_price_per_m2"),
   ("total_growth_rate", "growth_rate")]

/-- `DataFormat.DROP_COLUMNS` (a Python set; only membership matters). -/
def DROP_COLUMNS : List String :=
  ["dpe_tr001_modele_dpe_type_libelle", "dpe__geopoint", "dpe_latitude",
   "dpe__i", "dpe_geo_adresse", "dpe__rand",
   "dpe_code_insee_commune_actualise", "dpe_version_methode_dpe",
   "dpe_nom_methode_dpe", "dpe_tv016_departement_code", "dpe_longitude",
   "dpe__id", "year", "price_per_m2", "initial_price_m2",
   "estimation_status", "zipcode"]

/-- `DataFormat.FINAL_COLUMN_ORDER`, all 28 canonical columns in order. -/
def FINAL_COLUMN_ORDER : List String :=
  ["uuid", "address", "city", "sale_date",
   "postal_code", "insee_code", "region", "latitude", "longitude",
   "type", "surface", "rooms", "price", "analysis_url",
   "dpe_energy_class", "dpe_ges_class", "energy_consumption",
   "dpe_ges_estimate", "dpe_score", "dpe_geo_score", "construction_year",
   "thermal_surface", "building_type", "dpe_date",
   "estimated_price", "final_price_per_m2", "growth_rate",
   "last_modified"]

/-- `df.rename(columns=...)` applied to one column name. -/
def renameCol (c : String) : String := (lookupKV c RENAME_MAPPING).getD c

/-- Reading a cell of a row; a column that is absent reads as null (the
value the manager assigns to missing canonical columns). -/
def rowGet (r : Row) (c : String) : Cell := (lookupKV c r).getD Cell.null

/-- `df[col] = value` for a single row: overwrite the column in place when
present, append it otherwise. -/
def setCol (r : Row) (c : String) (v : Cell) : Row :=
  if (lookupKV c r).isSome then
    r.map (fun p => if p.1 = c then (c, v) else p)
  else r ++ [(c, v)]

/-- Step 2 of `add_data`: the rename-mapping sources that are absent from
the (dropped) input columns while their target is a required column. -/
def missing_required (cols : List String) : List String :=
  RENAME_MAPPING.filterMap (fun p =>
    if p.1 ∉ cols ∧ p.2 ∈ REQUIRED_COLUMNS then some p.1 else none)

/-- Steps 5 and 6 of `add_data` for one row: every column of
`FINAL_COLUMN_ORDER` is materialized (missing ones as null) and the row is
reordered to the final column order. -/
def reorderRow (r : Row) : Row :=
  FINAL_COLUMN_ORDER.map (fun c => (c, rowGet r c))

/-- `df['uuid'] = [str(uuid.uuid4()) for _ in range(len(df))]`: append one
generated uuid per row, in row order. -/
def assignUuids (uuidGen : Nat → String) : Nat → List Row → List Row
  | _, [] => []
  | i, r :: rest =>
    (r ++ [("uuid", Cell.str (uuidGen i))]) :: assignUuids uuidGen (i+1) rest

/-- Step 1 of `add_data` applied to the column list. -/
def dropCols (new_data : Frame) : List String :=
  new_data.cols.filter (fun c => c ∉ DROP_COLUMNS)

/-- Step 1 of `add_data` applied to the rows. -/
def dropRows (new_data : Frame) : List Row :=
  new_data.rows.map (fun r => r.filter (fun p => p.1 ∉ DROP_COLUMNS))

/-- Step 3 of `add_data` applied to the column list. -/
def renamedCols (new_data : Frame) : List String :=
  (dropCols new_data).map renameCol

/-- Step 3 of `add_data` applied to the rows. -/
def renamedRows (new_data : Frame) : List Row :=
  (dropRows new_data).map (fun r => r.map (fun p => (renameCol p.1, p.2)))

/-- Steps 1-6 of `PropertyDataManager.add_data` combined: drop unwanted
columns, check required columns, rename, add `uuid` (fresh `uuid4` per row
when the column is absent) and `last_modified` (one `datetime.now()`
timestamp for the whole call), materialize missing canonical columns and
reorder. -/
def normalize_input (new_data : Frame) (uuidGen : Nat → String)
    (ts : String) : Except String (List Row) :=
  if missing_required (dropCols new_data) ≠ [] then
    .error ("Missing required columns: "
      ++ String.intercalate ", " (missing_required (dropCols new_data)))
  else
    let df3rows := if "uuid" ∈ renamedCols new_data then renamedRows new_data
      else assignUuids uuidGen 0 (renamedRows new_data)
    Except.ok ((df3rows.map
      (fun r => setCol r "last_modified" (Cell.str ts))).map reorderRow)

/-- Step 7 of `add_data` on a nonempty store: normalize the store's frame to
the final columns, build the update mask (the `uuid` branch — the processed
frame always carries a `uuid` column, so the `(address, city, sale_date)`
fallback written in the source is unreachable), split the input into
`to_update`/`to_add`, overwrite matching store rows in place and append the
rest. Returns the new frame and the `(updated, added)` counts. -/
def merge_with_store (store : Frame) (dfRows : List Row) :
    Frame × Nat × Nat :=
  let storeRows := store.rows.map reorderRow
  let update_mask : Row → Bool := fun srow =>
    if "uuid" ∈ FINAL_COLUMN_ORDER then
      decide (rowGet srow "uuid" ∈ dfRows.map (fun r => rowGet r "uuid"))
    else
      decide (rowGet srow "address" ∈ dfRows.map (fun r => rowGet r "address"))
      && decide (rowGet srow "city" ∈ dfRows.map (fun r => rowGet r "city"))
      && decide (rowGet srow "sale_date"
            ∈ dfRows.map (fun r => rowGet r "sale_date"))
  let maskedUuids := (storeRows.filter update_mask).map
    (fun r => rowGet r "uuid")
  let to_update := dfRows.filter (fun r => rowGet r "uuid" ∈ maskedUuids)
  let to_add := dfRows.filter (fun r => rowGet r "uuid" ∉ maskedUuids)
  let updatedRows := to_update.foldl (fun acc urow =>
    acc.map (fun srow =>
      if rowGet srow "uuid" = rowGet urow "uuid" then urow else srow))
    storeRows
  (⟨FINAL_COLUMN_ORDER, updatedRows ++ to_add⟩, to_update.length,
   to_add.length)

/-- The statistics dictionary returned by `add_data`. -/
structure AddStats where
  total_processed : Nat
  updated : Nat
  added : Nat
  timestamp : String
deriving DecidableEq, Repr

/-- `PropertyDataManager.add_data`: normalize the input, then either
initialize an empty store with it or merge it into the existing data. -/
def add_data (store : Frame) (new_data : Frame) (uuidGen : Nat → String)
    (ts : String) : Except String (Frame × AddStats) :=
  match normalize_input new_data uuidGen ts with
  | .error e => .error e
  | .ok dfRows =>
    if store.isEmpty then
      .ok (⟨FINAL_COLUMN_ORDER, dfRows⟩, ⟨dfRows.length, 0, dfRows.length, ts⟩)
    else
      let m := merge_with_store store dfRows
      .ok (m.1, ⟨dfRows.length, m.2.1, m.2.2, ts⟩)

/-- The manager state transition of a call to `add_data`: on the
missing-required-columns error the exception propagates before any mutation
of `self.data`, so the store is returned unchanged. -/
def managerAddData (store : Frame) (new_data : Frame)
    (uuidGen : Nat → String) (ts : String) :
    Frame × Except String AddStats :=
  match add_data store new_data uuidGen ts with
  | .ok (s, st) => (s, .ok st)
  | .error e => (store, .error e)

/-- The statistics dictionary returned by `delete_data`. -/
structure DeleteStats where
  original_count : Nat
  deleted_count : Nat
  remaining_count : Nat
deriving DecidableEq, Repr

/-- `PropertyDataManager.delete_data`: keep the rows not satisfying the
condition (`self.data.query("not (condition)")`, which preserves the
order and content of the kept rows) and report the counts. -/
def delete_data (store : Frame) (cond : Row → Bool) : Frame × DeleteStats :=
  let original_count := store.rows.length
  let remaining := store.rows.filter (fun r => !(cond r))
  (⟨store.cols, remaining⟩,
   ⟨original_count, original_count - remaining.length, remaining.length⟩)

/-- The pandas query condition string `"price < 100000"` as a row
predicate; a null price compares false, as NaN does in pandas. -/
def priceBelow100000 (r : Row) : Bool :=
  match rowGet r "price" with
  | Cell.int n => decide (n < 100000)
  | Cell.rat q => decide (q < 100000)
  | _ => false

/-! ## Enrichment write-sets (`dpe_enrichment.py`, `address_enrichment.py`) -/

/-- `DPEService.IGNORE_FIELDS`. -/
def IGNORE_FIELDS : List String :=
  ["tr001_modele_dpe_type_libelle", "geopoint", "latitude", "i",
   "geo_adresse", "rand", "code_insee_commune_actualise",
   "version_methode_dpe", "nom_methode_dpe", "tv016_departement_code",
   "longitude", "id", "year", "price_per_m2", "initial_price_m2",
   "estimation_status", "zipcode"]

/-- The dict comprehension of `DPEService._get_dpe_data` on a validated
candidate: keep the fields that are not ignored and carry a non-null
value. -/
def dpe_result_fields (dpe_data : List (String × Cell)) :
    List (String × Cell) :=
  dpe_data.filter (fun p => p.1 ∉ IGNORE_FIELDS ∧ p.2 ≠ Cell.null)

/-- The write loop of `DPEService._save_results` for one queued result:
`df.loc[idx, "dpe_" + key] = value` for each returned field. -/
def save_dpe_result (row : Row) (fields : List (String × Cell)) : Row :=
  fields.foldl (fun r p => setCol r ("dpe_" ++ p.1) p.2) row

/-- The geocoding write of `AddressEnrichment.process`:
`df.at[idx, 'longitude'], df.at[idx, 'latitude'] = coords` — both fields
are written together, or not at all when geocoding returned nothing. -/
def apply_geocoding (row : Row) (coords : Option (Cell × Cell)) : Row :=
  match coords with
  | some c => setCol (setCol row "longitude" c.1) "latitude" c.2
  | none => row

/-! ### Association-list lemmas shared by the store and enrichment proofs -/

/-- A lookup that misses is exactly absence from the key list. -/
theorem lookupKV_eq_none_iff {β : Type} (k : String) (l : List (String × β)) :
    lookupKV k l = none ↔ k ∉ l.map Prod.fst := by
  induction l with
  | nil => simp
  | cons p r ih =>
    by_cases h : p.1 = k
    · simp [lookupKV, h]
    · simp [lookupKV, h, ih, Ne.symm h]

/-- A key present in the key list has a lookup value. -/
theorem exists_lookupKV_of_mem_keys {β : Type} {k : String}
    {l : List (String × β)} (h : k ∈ l.map Prod.fst) :
    ∃ v, lookupKV k l = some v := by
  cases hl : lookupKV k l with
  | none => exact absurd ((lookupKV_eq_none_iff k l).mp hl) (not_not.mpr h)
  | some v => exact ⟨v, rfl⟩

/-- A lookup value is one of the stored values. -/
theorem lookupKV_value_mem {β : Type} {k : String} {v : β}
    {l : List (String × β)} (h : lookupKV k l = some v) :
    v ∈ l.map Prod.snd := by
  induction l with
  | nil => simp [lookupKV] at h
  | cons p r ih =>
    by_cases hp : p.1 = k
    · simp [lookupKV, hp] at h
      simp [h]
    · simp [lookupKV, hp] at h
      simp [ih h]

/-- Looking up past a prefix that misses. -/
theorem lookupKV_append_of_none {β : Type} {k : String}
    {l1 l2 : List (String × β)} (h : lookupKV k l1 = none) :
    lookupKV k (l1 ++ l2) = lookupKV k l2 := by
  induction l1 with
  | nil => rfl
  | cons p r ih =>
    by_cases hp : p.1 = k
    · simp [lookupKV, hp] at h
    · simp [lookupKV, hp] at h ⊢
      exact ih h

/-- With nodup keys, membership determines the lookup value. -/
theorem lookupKV_of_mem_nodup {β : Type} {k : String} {v : β}
    {l : List (String × β)} (hnd : (l.map Prod.fst).Nodup)
    (hm : (k, v) ∈ l) : lookupKV k l = some v := by
  induction l with
  | nil => simp at hm
  | cons p r ih =>
    rcases List.mem_cons.mp hm with h | h
    · subst h; simp [lookupKV]
    · have hk : k ∈ r.map Prod.fst := List.mem_map.mpr ⟨(k, v), h, rfl⟩
      have hne : p.1 ≠ k := by
        intro he
        exact (List.nodup_cons.mp (by simpa using hnd)).1 (he ▸ hk)
      simp [lookupKV, hne]
      exact ih (List.nodup_cons.mp (by simpa using hnd)).2 h

/-- Looking up past a prefix that hits. -/
theorem lookupKV_append_of_some {β : Type} {k : String} {v : β}
    {l1 l2 : List (String × β)} (h : lookupKV k l1 = some v) :
    lookupKV k (l1 ++ l2) = some v := by
  induction l1 with
  | nil => simp [lookupKV] at h
  | cons p r ih =>
    by_cases hp : p.1 = k
    · simp [lookupKV, hp] at h ⊢
      exact h
    · simp [lookupKV, hp] at h ⊢
      exact ih h

/-- The in-place overwrite map of `setCol`, read back at the written key. -/
theorem lookupKV_replace_self (r : Row) (c : String) (v : Cell)
    (h : (lookupKV c r).isSome) :
    lookupKV c (r.map (fun p => if p.1 = c then (c, v) else p)) = some v := by
  induction r with
  | nil => simp [lookupKV] at h
  | cons p rest ih =>
    by_cases hp : p.1 = c
    · simp [lookupKV, hp]
    · have h2 : (lookupKV c rest).isSome := by simpa [lookupKV, hp] using h
      simp [lookupKV, hp, ih h2]

/-- The in-place overwrite map of `setCol`, read at another key. -/
theorem lookupKV_replace_ne (r : Row) {c c' : String} (h : c' ≠ c)
    (v : Cell) :
    lookupKV c' (r.map (fun p => if p.1 = c then (c, v) else p))
      = lookupKV c' r := by
  induction r with
  | nil => rfl
  | cons p rest ih =>
    by_cases hp : p.1 = c
    · simp [lookupKV, hp, Ne.symm h, ih]
    · simp [lookupKV, hp, ih]

/-- Setting a column then reading it back gives the new value. -/
theorem lookupKV_setCol_self (r : Row) (c : String) (v : Cell) :
    lookupKV c (setCol r c v) = some v := by
  unfold setCol
  by_cases h : (lookupKV c r).isSome
  · rw [if_pos h]
    exact lookupKV_replace_self r c v h
  · rw [if_neg h]
    rw [lookupKV_append_of_none (Option.not_isSome_iff_eq_none.mp h)]
    simp [lookupKV]

/-- Setting a column leaves every other column unchanged. -/
theorem lookupKV_setCol_ne (r : Row) {c c' : String} (h : c' ≠ c)
    (v : Cell) : lookupKV c' (setCol r c v) = lookupKV c' r := by
  unfold setCol
  by_cases hs : (lookupKV c r).isSome
  · rw [if_pos hs]
    exact lookupKV_replace_ne r h v
  · rw [if_neg hs]
    cases hl : lookupKV c' r with
    | none =>
      rw [lookupKV_append_of_none hl]
      simp [lookupKV, Ne.symm h]
    | some w => exact lookupKV_append_of_some hl

/-- Reading a set column through `rowGet`. -/
theorem rowGet_setCol_self (r : Row) (c : String) (v : Cell) :
    rowGet (setCol r c v) c = v := by
  simp [rowGet, lookupKV_setCol_self]

/-- Reading another column through `rowGet` after a set. -/
theorem rowGet_setCol_ne (r : Row) {c c' : String} (h : c' ≠ c) (v : Cell) :
    rowGet (setCol r c v) c' = rowGet r c' := by
  simp [rowGet, lookupKV_setCol_ne r h v]

/-- Looking up a tabulated row evaluates the tabulation function. -/
theorem lookupKV_tabulate (f : String → Cell) (l : List String) {c : String}
    (hc : c ∈ l) :
    lookupKV c (l.map (fun x => (x, f x))) = some (f c) := by
  induction l with
  | nil => simp at hc
  | cons x r ih =>
    rcases List.mem_cons.mp hc with h | h
    · subst h; simp [lookupKV]
    · by_cases hx : x = c
      · subst hx; simp [lookupKV]
      · simp [lookupKV, hx, ih h]

/-- The key list of a reordered row is exactly the final column order. -/
theorem reorderRow_keys (r : Row) :
    (reorderRow r).map Prod.fst = FINAL_COLUMN_ORDER := by
  simp [reorderRow, List.map_map, Function.comp_def]

/-- Reordering preserves the value of every final column. -/
theorem rowGet_reorderRow {c : String} (hc : c ∈ FINAL_COLUMN_ORDER)
    (r : Row) : rowGet (reorderRow r) c = rowGet r c := by
  unfold reorderRow
  unfold rowGet
  rw [lookupKV_tabulate (fun x => (lookupKV x r).getD Cell.null)
    FINAL_COLUMN_ORDER hc]
  rfl

/-- Filtering rows by key membership preserves lookups of kept keys. -/
theorem lookupKV_filter_keys {β : Type} (S : List String) {k : String}
    (hk : k ∉ S) (r : List (String × β)) :
    lookupKV k (r.filter (fun p => p.1 ∉ S)) = lookupKV k r := by
  induction r with
  | nil => rfl
  | cons p rest ih =>
    simp only [decide_not] at ih ⊢
    rw [List.filter_cons]
    by_cases hpS : p.1 ∈ S
    · have hp : p.1 ≠ k := fun h => hk (h ▸ hpS)
      simp [hpS, lookupKV, hp, ih]
    · by_cases hp : p.1 = k
      · simp [hpS, lookupKV, hp, hk]
      · simp [hpS, lookupKV, hp, ih]

/-- Renaming keys with a map that only hits `k` at `k` itself preserves the
lookup of `k`. -/
theorem lookupKV_mapKeys {β : Type} (g : String → String) (k : String)
    (hg : ∀ c, g c = k ↔ c = k) (r : List (String × β)) :
    lookupKV k (r.map (fun p => (g p.1, p.2))) = lookupKV k r := by
  induction r with
  | nil => rfl
  | cons p rest ih =>
    by_cases hp : p.1 = k
    · simp [lookupKV, hp, (hg k).mpr rfl]
    · have hgp : g p.1 ≠ k := fun h => hp ((hg p.1).mp h)
      simp [lookupKV, hp, hgp, ih]

/-- The key list after the key-membership filter. -/
theorem keys_filter {β : Type} (S : List String) (r : List (String × β)) :
    (r.filter (fun p => p.1 ∉ S)).map Prod.fst
      = (r.map Prod.fst).filter (fun c => c ∉ S) := by
  induction r with
  | nil => rfl
  | cons p rest ih =>
    simp only [decide_not] at ih ⊢
    rw [List.map_cons, List.filter_cons, List.filter_cons]
    by_cases hpS : p.1 ∈ S
    · simp [hpS, ih]
    · simp [hpS, ih]

/-- The key list after a key-renaming map. -/
theorem keys_mapPairs {β : Type} (g : String → String)
    (r : List (String × β)) :
    (r.map (fun p => (g p.1, p.2))).map Prod.fst = (r.map Prod.fst).map g := by
  induction r with
  | nil => rfl
  | cons p rest ih => simp [ih]

/-- Membership survives a key map that only hits `k` at `k`. -/
theorem mem_map_iff_of_ker (g : String → String) (k : String)
    (hg : ∀ c, g c = k ↔ c = k) (l : List String) :
    k ∈ l.map g ↔ k ∈ l := by
  simp only [List.mem_map]
  constructor
  · rintro ⟨c, hc, hck⟩
    exact ((hg c).mp hck) ▸ hc
  · intro h
    exact ⟨k, h, (hg k).mpr rfl⟩

/-- `renameCol` produces a canonical name `k` that is not a rename target
and not a rename source only from `k` itself. -/
theorem renameCol_eq_iff (k : String)
    (hv : k ∉ RENAME_MAPPING.map Prod.snd)
    (hk : lookupKV k RENAME_MAPPING = none) (c : String) :
    renameCol c = k ↔ c = k := by
  unfold renameCol
  cases hl : lookupKV c RENAME_MAPPING with
  | none => simp
  | some m =>
    have hm : m ≠ k := fun h => hv (h ▸ lookupKV_value_mem hl)
    have hc : c ≠ k := fun h => by rw [h, hk] at hl; exact Option.noConfusion hl
    simp [hm, hc]

/-- `renameCol` hits `"uuid"` only at `"uuid"`. -/
theorem renameCol_eq_uuid_iff (c : String) :
    renameCol c = "uuid" ↔ c = "uuid" :=
  renameCol_eq_iff "uuid" (by decide) (by decide) c

/-- Every row of a uuid-assigned list is an original row with one generated
uuid pair appended. -/
theorem mem_assignUuids {uuidGen : Nat → String} {i : Nat} {rows : List Row}
    {r : Row} (h : r ∈ assignUuids uuidGen i rows) :
    ∃ j r0, r0 ∈ rows ∧ r = r0 ++ [("uuid", Cell.str (uuidGen j))] := by
  induction rows generalizing i with
  | nil => simp [assignUuids] at h
  | cons r0 rest ih =>
    rcases List.mem_cons.mp h with h | h
    · exact ⟨i, r0, List.mem_cons_self r0 rest, h⟩
    · obtain ⟨j, r1, hr1, he⟩ := ih h
      exact ⟨j, r1, List.mem_cons_of_mem _ hr1, he⟩

/-- Every row produced by a successful `normalize_input` has exactly the
final columns in order, a non-null uuid (assuming rectangular input rows
and non-null input uuid values), and the call's timestamp as
`last_modified`. -/
theorem normalize_input_props {new_data : Frame} {uuidGen : Nat → String}
    {ts : String} {dfRows : List Row}
    (hrect : ∀ r ∈ new_data.rows, r.map Prod.fst = new_data.cols)
    (hinput : ∀ r ∈ new_data.rows, lookupKV "uuid" r ≠ some Cell.null)
    (hok : normalize_input new_data uuidGen ts = .ok dfRows) :
    ∀ r ∈ dfRows, r.map Prod.fst = FINAL_COLUMN_ORDER
      ∧ rowGet r "uuid" ≠ Cell.null
      ∧ rowGet r "last_modified" = Cell.str ts := by
  unfold normalize_input at hok
  by_cases hmiss : missing_required (dropCols new_data) ≠ []
  · rw [if_pos hmiss] at hok
    exact absurd hok (by simp)
  · rw [if_neg hmiss] at hok
    simp only [Except.ok.injEq] at hok
    subst hok
    intro r hr
    obtain ⟨r4, hr4, rfl⟩ := List.mem_map.mp hr
    obtain ⟨r3, hr3, rfl⟩ := List.mem_map.mp hr4
    refine ⟨reorderRow_keys _, ?_, ?_⟩
    · rw [rowGet_reorderRow (by decide) _,
        rowGet_setCol_ne _ (by decide) _]
      by_cases hu : "uuid" ∈ renamedCols new_data
      · rw [if_pos hu] at hr3
        obtain ⟨r1, hr1, rfl⟩ := List.mem_map.mp hr3
        obtain ⟨r0, hr0, rfl⟩ := List.mem_map.mp hr1
        have hcols : "uuid" ∈ new_data.cols := by
          have h1 : "uuid" ∈ dropCols new_data :=
            (mem_map_iff_of_ker renameCol "uuid" renameCol_eq_uuid_iff _).mp hu
          exact (List.mem_filter.mp h1).1
        have hkeys : "uuid" ∈ r0.map Prod.fst := (hrect r0 hr0) ▸ hcols
        obtain ⟨v, hv⟩ := exists_lookupKV_of_mem_keys hkeys
        have hvn : v ≠ Cell.null := fun he => hinput r0 hr0 (he ▸ hv)
        rw [rowGet, lookupKV_mapKeys renameCol "uuid" renameCol_eq_uuid_iff,
          lookupKV_filter_keys DROP_COLUMNS (by decide), hv]
        simpa using hvn
      · rw [if_neg hu] at hr3
        obtain ⟨j, r2, hr2, rfl⟩ := mem_assignUuids hr3
        obtain ⟨r1, hr1, rfl⟩ := List.mem_map.mp hr2
        obtain ⟨r0, hr0, rfl⟩ := List.mem_map.mp hr1
        have hkeys : "uuid" ∉ ((r0.filter (fun p => p.1 ∉ DROP_COLUMNS)).map
            (fun p => (renameCol p.1, p.2))).map Prod.fst := by
          rw [keys_mapPairs, keys_filter, hrect r0 hr0]
          exact hu
        have hnone := (lookupKV_eq_none_iff "uuid" _).mpr hkeys
        rw [rowGet, lookupKV_append_of_none hnone]
        simp [lookupKV]
    · rw [rowGet_reorderRow (by decide) _, rowGet_setCol_self]

/-- Provenance of a row surviving the update fold of the merge step: it is
either one of the update rows or one of the accumulator rows. -/
theorem foldl_replace_mem (repl : Row → Row → Row)
    (hrepl : ∀ s u, repl s u = u ∨ repl s u = s) (us acc : List Row)
    (r : Row)
    (hr : r ∈ us.foldl (fun acc u => acc.map (fun s => repl s u)) acc) :
    r ∈ us ∨ r ∈ acc := by
  induction us generalizing acc with
  | nil => exact Or.inr hr
  | cons u rest ih =>
    rcases ih _ hr with h | h
    · exact Or.inl (List.mem_cons_of_mem _ h)
    · rcases List.mem_map.mp h with ⟨s, hs, he⟩
      rcases hrepl s u with hc | hc
      · rw [hc] at he
        exact Or.inl (by rw [← he]; exact List.mem_cons_self _ _)
      · rw [hc] at he
        exact Or.inr (he ▸ hs)

/-- Provenance of the rows of a merged store: each is either a processed
input row or a reordered original store row. -/
theorem merge_with_store_mem (store : Frame) (dfRows : List Row) {r : Row}
    (hr : r ∈ (merge_with_store store dfRows).1.rows) :
    r ∈ dfRows ∨ ∃ s ∈ store.rows, r = reorderRow s := by
  simp only [merge_with_store] at hr
  rcases List.mem_append.mp hr with h | h
  · rcases foldl_replace_mem
        (fun s u => if rowGet s "uuid" = rowGet u "uuid" then u else s)
        (fun s u => by
          by_cases hc : rowGet s "uuid" = rowGet u "uuid"
          · exact Or.inl (if_pos hc)
          · exact Or.inr (if_neg hc))
        _ _ _ h with h2 | h2
    · exact Or.inl (List.mem_of_mem_filter h2)
    · rcases List.mem_map.mp h2 with ⟨s, hs, he⟩
      exact Or.inr ⟨s, hs, he.symm⟩
  · exact Or.inl (List.mem_of_mem_filter h)

/-- The merged store carries the final column order. -/
theorem merge_with_store_cols (store : Frame) (dfRows : List Row) :
    (merge_with_store store dfRows).1.cols = FINAL_COLUMN_ORDER := rfl

/-- A common prefix cancels in string concatenation. -/
theorem string_append_left_cancel {s t t2 : String}
    (h : s ++ t = s ++ t2) : t = t2 := by
  have hd : s.data ++ t.data = s.data ++ t2.data := by
    have h2 := congrArg String.data h
    simpa using h2
  have hdt := List.append_cancel_left hd
  calc t = ⟨t.data⟩ := rfl
    _ = ⟨t2.data⟩ := by rw [hdt]
    _ = t2 := rfl

/-- Writing a field list that avoids key `k` leaves column `dpe_k`
unchanged. -/
theorem save_dpe_not_mem (fields : List (String × Cell)) :
    ∀ (row : Row) (k : String), k ∉ fields.map Prod.fst →
    rowGet (save_dpe_result row fields) ("dpe_" ++ k)
      = rowGet row ("dpe_" ++ k) := by
  induction fields with
  | nil => intro row k _; rfl
  | cons p rest ih =>
    intro row k hk
    have hk1 : k ≠ p.1 ∧ k ∉ rest.map Prod.fst := by
      simpa [not_or] using hk
    have hne : ("dpe_" ++ k : String) ≠ "dpe_" ++ p.1 :=
      fun he => hk1.1 (string_append_left_cancel he)
    show rowGet (save_dpe_result (setCol row ("dpe_" ++ p.1) p.2) rest)
      ("dpe_" ++ k) = rowGet row ("dpe_" ++ k)
    rw [ih _ _ hk1.2, rowGet_setCol_ne _ hne]

/-- Writing a nodup-keyed field list containing `(k, v)` sets column
`dpe_k` to `v`. -/
theorem save_dpe_mem (fields : List (String × Cell)) :
    ∀ (row : Row) (k : String) (v : Cell),
    (fields.map Prod.fst).Nodup → (k, v) ∈ fields →
    rowGet (save_dpe_result row fields) ("dpe_" ++ k) = v := by
  induction fields with
  | nil => intro row k v _ hm; simp at hm
  | cons p rest ih =>
    intro row k v hnd hm
    rw [List.map_cons] at hnd
    have hnd2 := List.nodup_cons.mp hnd
    rcases List.mem_cons.mp hm with h | h
    · show rowGet (save_dpe_result (setCol row ("dpe_" ++ p.1) p.2) rest)
        ("dpe_" ++ k) = v
      have hkp : p.1 = k := by rw [← h]
      have hkr : k ∉ rest.map Prod.fst := hkp ▸ hnd2.1
      rw [save_dpe_not_mem rest _ k hkr, ← hkp, rowGet_setCol_self]
      rw [← h]
    · show rowGet (save_dpe_result (setCol row ("dpe_" ++ p.1) p.2) rest)
        ("dpe_" ++ k) = v
      exact ih _ _ _ hnd2.2 h

/-! ### Concrete store scenarios -/

/-- A one-row input table without a `uuid` column, carrying the three
required source columns. -/
def c1Input : Frame :=
  ⟨["complete_address", "city_name", "mutation_date", "price"],
   [[("complete_address", Cell.str "12 rue de paris"),
     ("city_name", Cell.str "LYON"),
     ("mutation_date", Cell.str "15/03/2019"),
     ("price", Cell.int 200000)]]⟩

/-- An input table that carries a `uuid` column holding a null value. -/
def nullUuidInput : Frame :=
  ⟨["complete_address", "city_name", "mutation_date", "uuid"],
   [[("complete_address", Cell.str "3 rue x"), ("city_name", Cell.str "NICE"),
     ("mutation_date", Cell.str "01/01/2020"), ("uuid", Cell.null)]]⟩

/-- An input table from which the required column `address` cannot be
resolved (`complete_address` is missing). -/
def noAddrInput : Frame :=
  ⟨["city_name", "mutation_date", "price"],
   [[("city_name", Cell.str "LYON"),
     ("mutation_date", Cell.str "01/01/2020"),
     ("price", Cell.int 100000)]]⟩

/-- A two-row store, one row below the 100000 price threshold and one
above. -/
def demoStore : Frame :=
  ⟨["uuid", "price"],
   [[("uuid", Cell.str "a"), ("price", Cell.int 50000)],
    [("uuid", Cell.str "b"), ("price", Cell.int 150000)]]⟩

/-- A validated DPE candidate record one of whose fields carries a null
value. -/
def c6Candidate : List (String × Cell) :=
  [("classe_consommation_energie", Cell.str "D"),
   ("consommation_energie", Cell.null)]

/-- A record whose DPE columns are untouched (null) before enrichment. -/
def c6BaseRow : Row :=
  [("dpe_classe_consommation_energie", Cell.null),
   ("dpe_consommation_energie", Cell.null)]

end ImmoTrack

namespace ImmoTrack

/-! ## Claim theorems for the price estimator -/

/-- C4: with yearly means {2020: 1000, 2021: 1100, 2022: 1210} and anchor
price 1464.1 for 2024, the growth edges connect consecutive known years
sorted ascending (10%, 10%, 21%), year 2023 has no edge and is skipped, a
record sold in 2020 at 1000 per m² projects to exactly 1464.1 per m², and
`_estimate_property_price` on such a record (price 100000, surface 100)
returns estimated price 146410, final price per m² 1464 (rounded),
growth rate 46 and status SUCCESS. -/
theorem C4_growth_projection :
    calculate_yearly_growth sampleMeans = sampleGrowthList
  ∧ lookupKV 2023 (calculate_yearly_growth sampleMeans) = none
  ∧ projectPrice (calculate_yearly_growth sampleMeans) 2020 1000 = 14641/10
  ∧ estimate_property_price [(("PARIS", "Appartement"), 14641/10)]
      [(("PARIS", "Appartement"), calculate_yearly_growth sampleMeans)]
      ⟨"PARIS", "Appartement", 100000, 100, some 2020⟩
      = ⟨some 146410, some 1000, some 1464, some 46, "SUCCESS"⟩ := by
  have hg : calculate_yearly_growth sampleMeans = sampleGrowthList := by
    norm_num [calculate_yearly_growth, sampleMeans, sampleGrowthList, sortYears,
      insertSorted, lookupKV, List.filterMap_cons]
  have hrange : ((List.range ((2024 : Int) - 2020).toNat).map
      (fun i => (2020 : Int) + (i : Int))) = [2020, 2021, 2022, 2023] := by decide
  have hp : projectPrice sampleGrowthList 2020 (1000 : ℚ) = 14641/10 := by
    rw [projectPrice, hrange]
    norm_num [lookupKV, sampleGrowthList]
  refine ⟨hg, ?_, ?_, ?_⟩
  · rw [hg]; decide
  · rw [hg]; exact hp
  · rw [hg]
    simp only [estimate_property_price, lookupKV_cons, lookupKV_nil]
    norm_num [hp, pythonRound]
    exact fun h => absurd h (Option.some_ne_none _)

/-- C2, counterexample: for a record whose (city, type) key has no reference
price, the estimator reports NO_REFERENCE with a null estimate even though a
reference price for another property type of the same city exists (so a
city-wide average across property types would be available): no city-average
fallback is performed by `PriceEstimator._estimate_property_price`. -/
theorem C2_counterexample :
    (estimate_property_price lyonHousePrices [] noRefRow).estimation_status
      = "NO_REFERENCE"
  ∧ (estimate_property_price lyonHousePrices [] noRefRow).estimated_price = none
  ∧ lookupKV ("LYON", "Maison") lyonHousePrices = some 3000 := by
  have hlook : lookupKV ("LYON", "Appartement") lyonHousePrices = none := by
    decide
  have h : estimate_property_price lyonHousePrices [] noRefRow =
      ⟨none, some ((200000 : ℚ)/50), none, none, "NO_REFERENCE"⟩ := by
    simp only [estimate_property_price, noRefRow]
    rw [if_neg (by norm_num : ¬ ((50 : ℚ) = 0)), if_pos hlook]
  exact ⟨by rw [h], by rw [h], by simp [lyonHousePrices, lookupKV]⟩

/-- C2 as amended: whenever the (city, type) key has no reference price (and
the surface is nonzero, so the initial division does not raise), the
estimator returns status NO_REFERENCE with a null estimated price,
regardless of the other entries of the reference table: there is no
city-wide-average fallback. -/
theorem C2_amended (cp : List (CityKey × ℚ))
    (gr : List (CityKey × List (Int × GrowthInfo))) (row : EstRow)
    (hsurf : row.surface_area ≠ 0)
    (href : lookupKV (row.city_name, row.property_type) cp = none) :
    (estimate_property_price cp gr row).estimation_status = "NO_REFERENCE"
  ∧ (estimate_property_price cp gr row).estimated_price = none := by
  simp [estimate_property_price, hsurf, href]

/-- Witness for `C2_amended` at the concrete `noRefRow` scenario. -/
theorem C2_amended_witness :
    (estimate_property_price lyonHousePrices [] noRefRow).estimation_status
      = "NO_REFERENCE" :=
  (C2_amended lyonHousePrices [] noRefRow
    (by simp [noRefRow])
    (by simp [noRefRow, lyonHousePrices, lookupKV])).1

/-- C3, counterexample: a record sold in the anchor year 2024 whose
(city, type) key has no reference price gets status NO_REFERENCE with a null
estimate, not CURRENT_YEAR with its own price: the reference-price check
runs before the sale-year check. -/
theorem C3_counterexample :
    (estimate_property_price [] [] year2024Row).estimation_status
      = "NO_REFERENCE"
  ∧ (estimate_property_price [] [] year2024Row).estimation_status
      ≠ "CURRENT_YEAR"
  ∧ (estimate_property_price [] [] year2024Row).estimated_price = none := by
  have h : estimate_property_price [] [] year2024Row =
      ⟨none, some ((300000 : ℚ)/60), none, none, "NO_REFERENCE"⟩ := by
    simp only [estimate_property_price, year2024Row]
    rw [if_neg (by norm_num : ¬ ((60 : ℚ) = 0)),
      if_pos (show lookupKV ("NICE", "Maison") ([] : List (CityKey × ℚ)) = none
        from rfl)]
  exact ⟨by rw [h], by rw [h]; decide, by rw [h]⟩

/-- C3 as amended: for every record whose (city, type) key has a reference
price, whose date parses, whose surface is nonzero, and whose sale year is
at least the anchor year 2024, the estimator returns the record's own price,
`final_price_m2` equal to the initial price per m², total growth rate 0 and
status CURRENT_YEAR. -/
theorem C3_amended (cp : List (CityKey × ℚ))
    (gr : List (CityKey × List (Int × GrowthInfo))) (row : EstRow)
    (hsurf : row.surface_area ≠ 0) (p : ℚ)
    (href : lookupKV (row.city_name, row.property_type) cp = some p)
    (y : Int) (hy : row.mutation_year = some y) (h24 : 2024 ≤ y) :
    estimate_property_price cp gr row =
      ⟨some row.price, some (row.price / row.surface_area),
       some (row.price / row.surface_area), some 0, "CURRENT_YEAR"⟩ := by
  simp [estimate_property_price, hsurf, href, hy, h24]

/-- C7, counterexample: an address with no digits fails the self-comparison
even though the normalized locality is contained in the normalized address:
the empty extracted house number rejects before the street comparison, so
reflexivity does not hold for digit-free addresses. -/
theorem C7_counterexample :
    validate_address_match "rue de paris" "rue de paris" "paris" = false
  ∧ strIn (clean_text "paris") (clean_text "rue de paris") = true
  ∧ extract_number (clean_text "rue de paris") = "" := by
  refine ⟨by decide, by decide, by decide⟩

/-- C7 as amended: for every address `a` and locality such that the cleaned
locality is a substring of cleaned `a` and `a` contains at least one digit,
`_validate_address_match a a locality` returns true. -/
theorem C7_amended (a loc : String)
    (hcity : strIn (clean_text loc) (clean_text a) = true)
    (hnum : extract_number (clean_text a) ≠ "") :
    validate_address_match a a loc = true := by
  unfold validate_address_match
  rw [if_pos hcity, if_neg (by simp [hnum]),
    if_neg (show ¬ (extract_number (clean_text a) ≠ extract_number (clean_text a))
      from fun h => h rfl)]
  exact strIn_self _

/-- Witness for `C7_amended` at a concrete address containing a digit. -/
theorem C7_amended_witness :
    validate_address_match "12 Rue de Paris" "12 Rue de Paris" "Paris" = true :=
  C7_amended "12 Rue de Paris" "Paris" (by decide) (by decide)

/-- C8: whenever the numeric tokens extracted from the two cleaned addresses
are missing on either side or differ, `_validate_address_match` returns
false, for every city argument and however similar the street names are. -/
theorem C8_number_mismatch_rejects (input_addr dpe_addr city_name : String)
    (h : extract_number (clean_text input_addr) = ""
       ∨ extract_number (clean_text dpe_addr) = ""
       ∨ extract_number (clean_text input_addr)
           ≠ extract_number (clean_text dpe_addr)) :
    validate_address_match input_addr dpe_addr city_name = false := by
  unfold validate_address_match
  cases hc : strIn (clean_text city_name) (clean_text dpe_addr) with
  | false => simp [hc]
  | true =>
    rw [if_pos hc]
    rcases h with h | h | h
    · rw [if_pos (Or.inl h)]
    · rw [if_pos (Or.inr h)]
    · by_cases he : extract_number (clean_text input_addr) = ""
        ∨ extract_number (clean_text dpe_addr) = ""
      · rw [if_pos he]
      · rw [if_neg he, if_pos h]

/-- Witness for `C8_number_mismatch_rejects`: house numbers 12 and 13 on an
otherwise identical street reject. -/
theorem C8_number_mismatch_rejects_witness :
    validate_address_match "12 rue victor hugo" "13 rue victor hugo lyon" "lyon"
      = false :=
  C8_number_mismatch_rejects "12 rue victor hugo" "13 rue victor hugo lyon"
    "lyon" (by decide)

/-- C1: applying `add_data` twice with the same uuid-less one-row table does
NOT leave the row count unchanged: the first call stores one row, the second
call appends the row again (row count 2, updated = 0, added = 1), because
step 4 of `add_data` always adds a fresh-uuid column before the
`'uuid' in df.columns` test, making the `(address, city, sale_date)`
matching branch unreachable and the fresh uuids never match the stored
ones. -/
theorem C1_failing_input :
    ((add_data ⟨[], []⟩ c1Input (fun _ => "uuid-1") "t1").toOption.map
      (fun p => p.1.rows.length) = some 1)
  ∧ ((add_data ⟨[], []⟩ c1Input (fun _ => "uuid-1") "t1").toOption.bind
      (fun p => (add_data p.1 c1Input (fun _ => "uuid-2") "t2").toOption.map
        (fun q => (q.1.rows.length, q.2.updated, q.2.added)))
      = some (2, 0, 1)) := by
  exact ⟨by decide, by decide⟩

/-- C5: whenever a required canonical column cannot be resolved from the
input (some rename source whose target is required is missing after the
drop step), `add_data` raises the descriptive `Missing required columns`
error naming those columns, and the store is left exactly as it was: the
check runs before any mutation of `self.data`. -/
theorem C5_missing_required_atomic (store new_data : Frame)
    (uuidGen : Nat → String) (ts : String)
    (hmiss : missing_required (dropCols new_data) ≠ []) :
    managerAddData store new_data uuidGen ts
      = (store, .error ("Missing required columns: "
          ++ String.intercalate ", "
            (missing_required (dropCols new_data)))) := by
  unfold managerAddData add_data normalize_input
  rw [if_pos hmiss]

/-- Witness for `C5_missing_required_atomic` on an input lacking
`complete_address`. -/
theorem C5_missing_required_atomic_witness :
    (managerAddData demoStore noAddrInput (fun _ => "u") "t").1 = demoStore
  ∧ (managerAddData demoStore noAddrInput (fun _ => "u") "t").2
      = .error "Missing required columns: complete_address" := by
  rw [C5_missing_required_atomic demoStore noAddrInput (fun _ => "u") "t"
    (by decide)]
  exact ⟨rfl, rfl⟩

/-- C9: `delete_data` removes exactly the rows satisfying the condition:
the remaining rows are a sublist of the original rows (same cells, same
relative order), none of them satisfies the condition, every original row
not satisfying it is kept with its multiplicity, `deleted_count` equals the
original row count minus the remaining row count, and the columns are
untouched. Instantiated at `priceBelow100000` this is exactly
`delete_data("price < 100000")`. -/
theorem C9_delete_exact (store : Frame) (cond : Row → Bool) :
    ((delete_data store cond).1.rows.Sublist store.rows)
  ∧ (∀ r, r ∈ (delete_data store cond).1.rows → cond r = false)
  ∧ (∀ r, r ∈ store.rows → cond r = false →
      r ∈ (delete_data store cond).1.rows)
  ∧ (∀ r, ((delete_data store cond).1.rows).count r
      = if cond r then 0 else store.rows.count r)
  ∧ (delete_data store cond).2.deleted_count
      = store.rows.length - (delete_data store cond).1.rows.length
  ∧ (delete_data store cond).2.original_count = store.rows.length
  ∧ (delete_data store cond).1.cols = store.cols := by
  refine ⟨List.filter_sublist _, ?_, ?_, ?_, rfl, rfl, rfl⟩
  · intro r hr
    have h := (List.mem_filter.mp hr).2
    simpa using h
  · intro r hrs hc
    exact List.mem_filter.mpr ⟨hrs, by simp [hc]⟩
  · intro r
    by_cases h : cond r = true
    · rw [if_pos h, List.count_eq_zero]
      intro hmem
      have hk := (List.mem_filter.mp hmem).2
      simp [h] at hk
    · rw [if_neg h]
      exact List.count_filter (by simp [Bool.not_eq_true] at h; simp [h])

/-- Witness for `C9_delete_exact`: in the two-row demo store, deleting
`price < 100000` keeps the 150000-priced row. -/
theorem C9_delete_exact_witness :
    [("uuid", Cell.str "b"), ("price", Cell.int 150000)]
      ∈ (delete_data demoStore priceBelow100000).1.rows :=
  (C9_delete_exact demoStore priceBelow100000).2.2.1
    [("uuid", Cell.str "b"), ("price", Cell.int 150000)]
    (by decide) (by decide)

/-- C10, counterexample: a successful `add_data` on an input whose `uuid`
column holds a null value leaves a store row with a null uuid: step 4 only
generates uuids when the column is entirely absent, so the claimed
unconditional non-null-uuid invariant fails. -/
theorem C10_counterexample :
    (add_data ⟨[], []⟩ nullUuidInput (fun _ => "fresh") "t").toOption.map
      (fun p => p.1.rows.map (fun r => rowGet r "uuid"))
      = some [Cell.null] := by
  decide

/-- C6, counterexample: a validated DPE candidate whose
`consommation_energie` field is null yields a record with
`dpe_classe_consommation_energie` populated while
`dpe_consommation_energie` stays null — a proper subset of the DPE field
unit is populated, because `_get_dpe_data` drops null-valued fields from
the returned dict. -/
theorem C6_counterexample :
    rowGet (save_dpe_result c6BaseRow (dpe_result_fields c6Candidate))
      "dpe_classe_consommation_energie" = Cell.str "D"
  ∧ rowGet (save_dpe_result c6BaseRow (dpe_result_fields c6Candidate))
      "dpe_consommation_energie" = Cell.null := by
  exact ⟨by decide, by decide⟩

/-- C10 as amended: provided the prior store rows all carry non-null `uuid`
and `last_modified` (vacuously true for an empty store), the input rows are
rectangular, and the input's `uuid` values (when that column is present)
are non-null, then after every successful `add_data` the store has exactly
the columns of `FINAL_COLUMN_ORDER` in that order, every row's key list is
exactly `FINAL_COLUMN_ORDER`, every row carries a non-null uuid and a
non-null `last_modified`, and all rows processed in the call received the
single timestamp of the call as `last_modified`. -/
theorem C10_amended (store new_data : Frame) (uuidGen : Nat → String)
    (ts : String)
    (hstore : ∀ r ∈ store.rows, rowGet r "uuid" ≠ Cell.null
      ∧ rowGet r "last_modified" ≠ Cell.null)
    (hrect : ∀ r ∈ new_data.rows, r.map Prod.fst = new_data.cols)
    (hinput : ∀ r ∈ new_data.rows, lookupKV "uuid" r ≠ some Cell.null)
    (s2 : Frame) (stats : AddStats)
    (hok : add_data store new_data uuidGen ts = .ok (s2, stats)) :
    s2.cols = FINAL_COLUMN_ORDER
  ∧ (∀ r ∈ s2.rows, r.map Prod.fst = FINAL_COLUMN_ORDER
      ∧ rowGet r "uuid" ≠ Cell.null ∧ rowGet r "last_modified" ≠ Cell.null)
  ∧ (∀ dfRows, normalize_input new_data uuidGen ts = .ok dfRows →
      ∀ r ∈ dfRows, rowGet r "last_modified" = Cell.str ts) := by
  have hlast : ∀ dfRows2, normalize_input new_data uuidGen ts = .ok dfRows2 →
      ∀ r ∈ dfRows2, rowGet r "last_modified" = Cell.str ts :=
    fun dfRows2 hn2 r hr =>
      (normalize_input_props hrect hinput hn2 r hr).2.2
  have hmain : s2.cols = FINAL_COLUMN_ORDER
      ∧ (∀ r ∈ s2.rows, r.map Prod.fst = FINAL_COLUMN_ORDER
          ∧ rowGet r "uuid" ≠ Cell.null
          ∧ rowGet r "last_modified" ≠ Cell.null) := by
    cases hn : normalize_input new_data uuidGen ts with
    | error e =>
      unfold add_data at hok
      rw [hn] at hok
      exact absurd hok (by exact fun h => Except.noConfusion h)
    | ok dfRows =>
      have hprops := normalize_input_props hrect hinput hn
      have hdfp : ∀ r ∈ dfRows, r.map Prod.fst = FINAL_COLUMN_ORDER
          ∧ rowGet r "uuid" ≠ Cell.null
          ∧ rowGet r "last_modified" ≠ Cell.null := by
        intro r hr
        obtain ⟨h1, h2, h3⟩ := hprops r hr
        exact ⟨h1, h2, by rw [h3]; simp⟩
      unfold add_data at hok
      simp only [hn] at hok
      by_cases he : store.isEmpty
      · rw [if_pos he] at hok
        injection hok with hpair
        have hs : s2 = ⟨FINAL_COLUMN_ORDER, dfRows⟩ :=
          (congrArg Prod.fst hpair).symm
        subst hs
        exact ⟨rfl, fun r hr => hdfp r hr⟩
      · rw [if_neg he] at hok
        injection hok with hpair
        have hs : s2 = (merge_with_store store dfRows).1 :=
          (congrArg Prod.fst hpair).symm
        subst hs
        refine ⟨merge_with_store_cols store dfRows, ?_⟩
        intro r hr
        rcases merge_with_store_mem store dfRows hr with h | ⟨s, hs2, rfl⟩
        · exact hdfp r h
        · refine ⟨reorderRow_keys s, ?_, ?_⟩
          · rw [rowGet_reorderRow (by decide) s]
            exact (hstore s hs2).1
          · rw [rowGet_reorderRow (by decide) s]
            exact (hstore s hs2).2
  exact ⟨hmain.1, hmain.2, hlast⟩

/-- The store produced by adding `c1Input` to an empty store with uuid
generator `fun _ => "u1"` and timestamp `2025-01-01`. -/
def c10ResultRow : Row :=
  [("uuid", Cell.str "u1"), ("address", Cell.str "12 rue de paris"),
   ("city", Cell.str "LYON"), ("sale_date", Cell.str "15/03/2019"),
   ("postal_code", Cell.null), ("insee_code", Cell.null),
   ("region", Cell.null), ("latitude", Cell.null), ("longitude", Cell.null),
   ("type", Cell.null), ("surface", Cell.null), ("rooms", Cell.null),
   ("price", Cell.int 200000), ("analysis_url", Cell.null),
   ("dpe_energy_class", Cell.null), ("dpe_ges_class", Cell.null),
   ("energy_consumption", Cell.null), ("dpe_ges_estimate", Cell.null),
   ("dpe_score", Cell.null), ("dpe_geo_score", Cell.null),
   ("construction_year", Cell.null), ("thermal_surface", Cell.null),
   ("building_type", Cell.null), ("dpe_date", Cell.null),
   ("estimated_price", Cell.null), ("final_price_per_m2", Cell.null),
   ("growth_rate", Cell.null), ("last_modified", Cell.str "2025-01-01")]

/-- Witness for `C10_amended`: the row stored for `c1Input` carries its
generated non-null uuid. -/
theorem C10_amended_witness :
    rowGet c10ResultRow "uuid" ≠ Cell.null :=
  ((C10_amended ⟨[], []⟩ c1Input (fun _ => "u1") "2025-01-01"
      (by simp) (by decide) (by decide)
      ⟨FINAL_COLUMN_ORDER, [c10ResultRow]⟩ ⟨1, 0, 1, "2025-01-01"⟩
      (by rfl)).2.1 c10ResultRow (by decide)).2.1

/-- C6 as amended: the geocoding fields (`longitude`, `latitude`) are
written together as a unit or not at all, while the DPE fields of a matched
candidate are written exactly for the candidate's non-null, non-ignored
fields: a null-valued field leaves its `dpe_` column untouched, so the DPE
unit is complete only when the candidate carries every field non-null. -/
theorem C6_amended (row : Row) (lon lat : Cell)
    (candidate : List (String × Cell))
    (hnd : (candidate.map Prod.fst).Nodup) :
    (apply_geocoding row none = row)
  ∧ (rowGet (apply_geocoding row (some (lon, lat))) "longitude" = lon
      ∧ rowGet (apply_geocoding row (some (lon, lat))) "latitude" = lat)
  ∧ (∀ k v, (k, v) ∈ candidate → v ≠ Cell.null → k ∉ IGNORE_FIELDS →
      rowGet (save_dpe_result row (dpe_result_fields candidate))
        ("dpe_" ++ k) = v)
  ∧ (∀ k, lookupKV k candidate = some Cell.null →
      rowGet (save_dpe_result row (dpe_result_fields candidate))
        ("dpe_" ++ k) = rowGet row ("dpe_" ++ k)) := by
  refine ⟨rfl, ⟨?_, ?_⟩, ?_, ?_⟩
  · show rowGet (setCol (setCol row "longitude" lon) "latitude" lat)
      "longitude" = lon
    rw [rowGet_setCol_ne _ (by decide), rowGet_setCol_self]
  · show rowGet (setCol (setCol row "longitude" lon) "latitude" lat)
      "latitude" = lat
    rw [rowGet_setCol_self]
  · intro k v hm hv hk
    have hmem : (k, v) ∈ dpe_result_fields candidate := by
      unfold dpe_result_fields
      exact List.mem_filter.mpr ⟨hm, by simp [hv, hk]⟩
    have hnd2 : ((dpe_result_fields candidate).map Prod.fst).Nodup := by
      unfold dpe_result_fields
      exact ((List.filter_sublist _).map _).nodup hnd
    exact save_dpe_mem _ _ _ _ hnd2 hmem
  · intro k hl
    apply save_dpe_not_mem
    intro hk
    obtain ⟨p, hm, he⟩ := List.mem_map.mp hk
    have hmf := List.mem_filter.mp hm
    have hv : p.2 ≠ Cell.null := by
      have h2 := hmf.2
      simp at h2
      exact h2.2
    have hlk : lookupKV p.1 candidate = some p.2 :=
      lookupKV_of_mem_nodup hnd hmf.1
    rw [he, hl] at hlk
    exact hv (Option.some.inj hlk).symm

/-- Witness for `C6_amended`: the non-null candidate field is written. -/
theorem C6_amended_witness :
    rowGet (save_dpe_result c6BaseRow (dpe_result_fields c6Candidate))
      ("dpe_" ++ "classe_consommation_energie") = Cell.str "D" :=
  (C6_amended c6BaseRow Cell.null Cell.null c6Candidate (by decide)).2.2.1
    "classe_consommation_energie" (Cell.str "D")
    (by decide) (by decide) (by decide)

/-- Witness for `C3_amended` at the concrete `year2025Row` scenario. -/
theorem C3_amended_witness :
    estimate_property_price niceHousePrices [] year2025Row =
      ⟨some 300000, some (300000/60), some (300000/60), some 0,
       "CURRENT_YEAR"⟩ := by
  have h := C3_amended niceHousePrices [] year2025Row
    (by simp [year2025Row])
    5000 (by simp [year2025Row, niceHousePrices, lookupKV])
    2025 (by simp [year2025Row]) (by norm_num)
  simpa [year2025Row] using h

end ImmoTrack
